import Mathlib

/-!
Shallow embedding of src/opaque.rs from the onc-rpc repository: the XDR
variable-length opaque byte array codec (RFC 1014 section 3.12).

Modelling conventions: bytes are Nat values, buffers are List Nat, the
read cursor is a Nat position into an immutable buffer, and every u32
operation or `as u32` cast of the source is rendered as Nat arithmetic
reduced modulo 4294967296 at exactly that spot.  Overflowing u32
additions are modelled with wrap-around (release-build semantics; a
debug build would abort at the same inputs, so the claims settled
through those spots fail either way).  usize arithmetic is left exact:
it cannot overflow for any buffer that fits in memory.
-/

/-- pad_length (src/opaque.rs lines 102-107): number of zero bytes that
pad a length l to the next multiple of four.  The source takes and
returns u32; for l below 2^32 the Nat formula is identical and no
operation in it can overflow. -/
def pad_length (l : Nat) : Nat :=
  if l % 4 = 0 then 0 else 4 - l % 4

/-- Big-endian byte decomposition of a u32 value, as produced by
WriteBytesExt::write_u32 with the BigEndian order parameter: four
bytes, most significant first.  Callers pass n below 2^32. -/
def be32 (n : Nat) : List Nat :=
  [n / 16777216 % 256, n / 65536 % 256, n / 256 % 256, n % 256]

/-- ReadBytesExt::read_u32 with the BigEndian order parameter, on a
Cursor over `data` at position `pos`: reads the four bytes at positions
pos to pos + 3 as one big-endian u32, failing (UnexpectedEof, converted
by the question-mark operator into the crate error type) when fewer
than four bytes remain. -/
def readU32BE (data : List Nat) (pos : Nat) : Option Nat :=
  match data.drop pos with
  | b0 :: b1 :: b2 :: b3 :: _ =>
      some (b0 * 16777216 + b1 * 65536 + b2 * 256 + b3)
  | _ => none

/-- Outcome of the TryFrom implementation (src/opaque.rs lines 25-37).
The truncatedInput case is modelled from the spec: the crate-level
Error type that the read_u32 io error is converted into is not under
src/, and the spec names this failure TruncatedInput.  The payload of
the ok case is the borrowed byte view together with the new cursor
position.  The panicked case records a Rust panic: the slice
expression on line 34 indexes out of bounds whenever the computed end
exceeds the buffer length, and the source performs no bounds check. -/
inductive DecodeResult where
  | ok (payload : List Nat) (newPos : Nat)
  | truncatedInput
  | panicked
deriving DecidableEq

/-- The TryFrom implementation for Opaque (src/opaque.rs lines 25-37).
Reads the 4-byte big-endian length, computes start = pos + 4 and
stop = start + len (named end in the source; end is a Lean keyword),
sets the cursor to pad_length len + (stop as u32) - line 30 truncates
stop to u32, and the u32 addition wraps - and returns the subslice
data[start..stop], which panics when stop exceeds the buffer length. -/
def tryFrom (data : List Nat) (pos : Nat) : DecodeResult :=
  match readU32BE data pos with
  | none => DecodeResult.truncatedInput
  | some len =>
    let start := pos + 4
    let stop := start + len
    let paddedEnd := (pad_length len + stop % 4294967296) % 4294967296
    if stop ≤ data.length then
      DecodeResult.ok ((data.drop start).take len) paddedEnd
    else
      DecodeResult.panicked

/-- A Write sink.  cap none models an unbounded Vec-backed sink whose
writes always succeed (the Cursor over a Vec used by the tests of the
source file); cap (some c) models a fixed c-byte buffer, that is the
Write implementation for a mutable byte slice, whose write_all accepts
the bytes that fit and reports a WriteZero error when the data does
not fit. -/
structure Sink where
  cap : Option Nat
  written : List Nat
deriving DecidableEq

/-- Write::write_all on a Sink.  The Bool is true on Ok and false on
Err; on Err the bytes that fit have still been written. -/
def writeAll (s : Sink) (bs : List Nat) : Bool × Sink :=
  match s.cap with
  | none => (true, ⟨none, s.written ++ bs⟩)
  | some c =>
      if s.written.length + bs.length ≤ c then
        (true, ⟨some c, s.written ++ bs⟩)
      else
        (false, ⟨some c, s.written ++ bs.take (c - s.written.length)⟩)

/-- serialise_into of the SerializeOpaque implementation
(src/opaque.rs lines 77-87) with payload `body`.  It mirrors the
source statement by statement: len is the payload length cast by
`as u32`, a silent modular truncation for payloads longer than
u32::MAX; the length-prefix write error propagates through the
question-mark operator; the payload write_all result is discarded by
the wildcard let binding of line 81, so only its side effect on the
sink remains; the padding write error propagates.  The result is the
Ok flag as a Bool together with the final sink state. -/
def serialise_into (body : List Nat) (buf : Sink) : Bool × Sink :=
  let len := body.length % 4294967296
  match writeAll buf (be32 len) with
  | (false, buf1) => (false, buf1)
  | (true, buf1) =>
    let buf2 := (writeAll buf1 body).2
    let fill_bytes := pad_length len
    if fill_bytes > 0 then
      writeAll buf2 (List.replicate fill_bytes 0)
    else
      (true, buf2)

/-- The byte string produced by serialise_into on a fresh unbounded
sink. -/
def serialise_bytes (body : List Nat) : List Nat :=
  (serialise_into body ⟨none, []⟩).2.written

/-- serialised_len of the SerializeOpaque implementation
(src/opaque.rs lines 90-93): the payload length cast by `as u32`, plus
pad_length of it, added in u32 arithmetic, which wraps modulo 2^32
when len + pad_length len reaches 2^32. -/
def serialised_len (body : List Nat) : Nat :=
  let len := body.length % 4294967296
  (len + pad_length len) % 4294967296

/-- A concrete maximal frame: length prefix u32::MAX followed by
u32::MAX payload bytes and no padding byte, 4294967299 bytes in all. -/
def maxFrame : List Nat := 255 :: 255 :: 255 :: 255 :: List.replicate 4294967295 0

-- Helper lemmas shared by the claim theorems.

theorem serialised_len_eq (body : List Nat) :
    serialised_len body =
      (body.length % 4294967296 +
        pad_length (body.length % 4294967296)) % 4294967296 := rfl

theorem pad_length_lt (l : Nat) : pad_length l < 4 := by
  unfold pad_length
  split <;> omega

theorem pad_length_mod (l : Nat) :
    pad_length (l % 4294967296) = pad_length l := by
  unfold pad_length
  have h4 : l % 4294967296 % 4 = l % 4 := by omega
  rw [h4]

theorem be32_reconstruct (n : Nat) (h : n < 4294967296) :
    n / 16777216 % 256 * 16777216 + n / 65536 % 256 * 65536 +
      n / 256 % 256 * 256 + n % 256 = n := by
  omega

theorem readU32BE_cons (b0 b1 b2 b3 : Nat) (rest : List Nat) :
    readU32BE (b0 :: b1 :: b2 :: b3 :: rest) 0 =
      some (b0 * 16777216 + b1 * 65536 + b2 * 256 + b3) := rfl

theorem readU32BE_be32 (n : Nat) (rest : List Nat) (h : n < 4294967296) :
    readU32BE (be32 n ++ rest) 0 = some n := by
  have h1 : readU32BE (be32 n ++ rest) 0 =
      some (n / 16777216 % 256 * 16777216 + n / 65536 % 256 * 65536 +
        n / 256 % 256 * 256 + n % 256) := rfl
  rw [h1]
  exact congrArg some (be32_reconstruct n h)

theorem readU32BE_bound (data : List Nat) (pos len : Nat)
    (h : readU32BE data pos = some len) : pos + 4 ≤ data.length := by
  unfold readU32BE at h
  rcases hd : data.drop pos with _ | ⟨b0, _ | ⟨b1, _ | ⟨b2, _ | ⟨b3, rest⟩⟩⟩⟩ <;>
    rw [hd] at h
  · simp at h
  · simp at h
  · simp at h
  · simp at h
  · have hlen := congrArg List.length hd
    simp only [List.length_drop, List.length_cons] at hlen
    omega

theorem tryFrom_eq_of_read (data : List Nat) (pos len : Nat)
    (h : readU32BE data pos = some len) :
    tryFrom data pos =
      if pos + 4 + len ≤ data.length then
        DecodeResult.ok ((data.drop (pos + 4)).take len)
          ((pad_length len + (pos + 4 + len) % 4294967296) % 4294967296)
      else DecodeResult.panicked := by
  unfold tryFrom
  rw [h]

theorem tryFrom_ok_of (data : List Nat) (pos len : Nat)
    (hread : readU32BE data pos = some len)
    (hstop : pos + 4 + len ≤ data.length)
    (hfit : pos + 4 + len + pad_length len < 4294967296) :
    tryFrom data pos =
      DecodeResult.ok ((data.drop (pos + 4)).take len)
        (pos + 4 + len + pad_length len) := by
  rw [tryFrom_eq_of_read data pos len hread, if_pos hstop]
  have hp : (pad_length len + (pos + 4 + len) % 4294967296) % 4294967296 =
      pos + 4 + len + pad_length len := by omega
  rw [hp]

theorem serialise_into_unbounded (body s0 : List Nat) :
    serialise_into body ⟨none, s0⟩ =
      (true, ⟨none, s0 ++ be32 (body.length % 4294967296) ++ body ++
        List.replicate (pad_length (body.length % 4294967296)) 0⟩) := by
  unfold serialise_into writeAll
  dsimp only
  split
  · simp [List.append_assoc]
  · next hfill =>
    have h0 : pad_length (body.length % 4294967296) = 0 := by omega
    simp [h0, List.append_assoc]

theorem serialise_bytes_eq (body : List Nat) :
    serialise_bytes body =
      be32 (body.length % 4294967296) ++
        (body ++ List.replicate (pad_length (body.length % 4294967296)) 0) := by
  unfold serialise_bytes
  rw [serialise_into_unbounded]
  simp [List.append_assoc]

theorem maxFrame_length : maxFrame.length = 4294967299 := by
  unfold maxFrame
  rw [List.length_cons, List.length_cons, List.length_cons, List.length_cons,
    List.length_replicate]

theorem tryFrom_maxFrame :
    tryFrom maxFrame 0 = DecodeResult.ok (List.replicate 4294967295 0) 4 := by
  have hread : readU32BE maxFrame 0 = some 4294967295 := by
    unfold maxFrame
    rw [readU32BE_cons]
  rw [tryFrom_eq_of_read maxFrame 0 4294967295 hread]
  have hlen := maxFrame_length
  rw [if_pos (by omega)]
  have hdrop : maxFrame.drop (0 + 4) = List.replicate 4294967295 0 := rfl
  rw [hdrop]
  have hmin : (4294967295 : Nat) ⊓ 4294967295 = 4294967295 := by simp
  have htake : (List.replicate 4294967295 (0 : Nat)).take 4294967295 =
      List.replicate 4294967295 0 := by
    rw [List.take_replicate, hmin]
  rw [htake]
  have hpos : (pad_length 4294967295 + (0 + 4 + 4294967295) % 4294967296) %
      4294967296 = 4 := by
    have hpad : pad_length 4294967295 = 1 := by norm_num [pad_length]
    omega
  rw [hpos]

-- Claim theorems.

/-- C1: encoding any byte sequence b of length at most u32::MAX with
serialise_into and decoding the resulting wire bytes with the TryFrom
implementation yields exactly the payload b, including the empty b. -/
theorem C1_encode_decode_round_trip (b : List Nat) (h : b.length < 4294967296) :
    ∃ p, tryFrom (serialise_bytes b) 0 = DecodeResult.ok b p := by
  have hmod : b.length % 4294967296 = b.length := Nat.mod_eq_of_lt h
  have hser : serialise_bytes b =
      be32 b.length ++ (b ++ List.replicate (pad_length b.length) 0) := by
    rw [serialise_bytes_eq, hmod]
  have hread := readU32BE_be32 b.length
    (b ++ List.replicate (pad_length b.length) 0) h
  have hmain : tryFrom (serialise_bytes b) 0 =
      DecodeResult.ok b
        ((pad_length b.length + (0 + 4 + b.length) % 4294967296) % 4294967296) := by
    rw [hser, tryFrom_eq_of_read _ 0 b.length hread]
    have hlength : (be32 b.length ++
        (b ++ List.replicate (pad_length b.length) 0)).length =
        4 + (b.length + pad_length b.length) := by
      simp only [be32, List.length_append, List.length_cons, List.length_nil,
        List.length_replicate]
    rw [if_pos (by omega)]
    have hdrop : (be32 b.length ++
        (b ++ List.replicate (pad_length b.length) 0)).drop (0 + 4) =
        b ++ List.replicate (pad_length b.length) 0 := rfl
    rw [hdrop, List.take_left]
  exact ⟨_, hmain⟩

/-- C1 witness: the round trip evaluated on the payload 7, 8, 9. -/
theorem C1_encode_decode_round_trip_witness :
    ([7, 8, 9] : List Nat).length < 4294967296 ∧
    ∃ p, tryFrom (serialise_bytes [7, 8, 9]) 0 = DecodeResult.ok [7, 8, 9] p :=
  ⟨by decide, C1_encode_decode_round_trip [7, 8, 9] (by decide)⟩

/-- C2 evaluation: for the 4-byte buffer holding only the length prefix
with declared length 5, try_from reaches the out-of-bounds slice
data[4..9] of line 34 and panics; it does not return the TruncatedInput
error the claim requires. -/
theorem C2_declared_length_panics :
    tryFrom [0, 0, 0, 5] 0 = DecodeResult.panicked := by decide

/-- C3 evaluation: with a fixed 4-byte sink, which holds exactly the
length prefix, and the 4-byte payload 1, 2, 3, 4 needing no padding,
the payload write fails with WriteZero after writing nothing, yet
serialise_into returns Ok, because line 81 discards the write_all
result; the final sink holds only the prefix bytes 0, 0, 0, 4. -/
theorem C3_payload_write_error_swallowed :
    serialise_into [1, 2, 3, 4] ⟨some 4, []⟩ =
      (true, ⟨some 4, [0, 0, 0, 4]⟩) ∧
    (writeAll ⟨some 4, [0, 0, 0, 4]⟩ [1, 2, 3, 4]).1 = false := by decide

/-- C4 evaluation: for a payload of 2^32 bytes, serialise_into succeeds
and silently writes the truncated zero length prefix, 2^32 mod 2^32,
followed by the whole payload; no EncodingTooLarge failure exists in
the code. -/
theorem C4_silent_truncation :
    serialise_into (List.replicate 4294967296 0) ⟨none, []⟩ =
      (true, ⟨none, [0, 0, 0, 0] ++ List.replicate 4294967296 0⟩) := by
  rw [serialise_into_unbounded]
  have h1 : (List.replicate 4294967296 (0 : Nat)).length % 4294967296 = 0 := by
    rw [List.length_replicate]
  rw [h1]
  have h2 : be32 0 = [0, 0, 0, 0] := rfl
  have h3 : List.replicate (pad_length 0) (0 : Nat) = [] := rfl
  rw [h2, h3, List.append_nil, List.nil_append]

/-- C5: pad_length is 0 on multiples of four and 4 - n mod 4 otherwise,
is always at most 3, and always completes n to a multiple of four. -/
theorem C5_pad_length_correct (n : Nat) :
    pad_length n = (if n % 4 = 0 then 0 else 4 - n % 4) ∧
    pad_length n ≤ 3 ∧ (n + pad_length n) % 4 = 0 := by
  refine ⟨rfl, ?_, ?_⟩ <;> unfold pad_length <;> split <;> omega

/-- C6 amended: whenever len + pad_length len fits in u32,
serialised_len returns len + pad_length len and a successful
serialise_into writes exactly 4 + serialised_len bytes.  At
len = u32::MAX the u32 addition of line 92 wraps, so the unamended
claim fails there. -/
theorem C6_frame_size (body : List Nat)
    (h : body.length + pad_length body.length < 4294967296) :
    serialised_len body = body.length + pad_length body.length ∧
    (serialise_bytes body).length = 4 + serialised_len body := by
  have hlen : body.length < 4294967296 := by omega
  have hmod : body.length % 4294967296 = body.length := Nat.mod_eq_of_lt hlen
  have hsl : serialised_len body = body.length + pad_length body.length := by
    rw [serialised_len_eq, hmod, Nat.mod_eq_of_lt h]
  refine ⟨hsl, ?_⟩
  rw [serialise_bytes_eq, hmod, hsl]
  simp only [be32, List.length_append, List.length_cons, List.length_nil,
    List.length_replicate]

/-- C6 witness: the frame size law evaluated on the payload 1. -/
theorem C6_frame_size_witness :
    ([1] : List Nat).length + pad_length ([1] : List Nat).length < 4294967296 ∧
    (serialised_len [1] = ([1] : List Nat).length +
        pad_length ([1] : List Nat).length ∧
      (serialise_bytes [1]).length = 4 + serialised_len [1]) :=
  ⟨by decide, C6_frame_size [1] (by decide)⟩

/-- C6 counterexample: at payload length u32::MAX the u32 addition in
serialised_len wraps to 0, so it does not return len + pad_length len,
which is 2^32. -/
theorem C6_counterexample :
    serialised_len (List.replicate 4294967295 0) ≠
      (List.replicate 4294967295 0).length +
        pad_length (List.replicate 4294967295 0).length := by
  rw [serialised_len_eq, List.length_replicate]
  norm_num [pad_length]

/-- C7 amended: for every successful decode starting at position p
whose true final offset p + 4 + len + pad_length len fits in u32, the
cursor ends exactly there; the buffer itself is only read, never
written, the decode being a pure function of buffer and position.  For
larger frames line 30 truncates the end offset to u32, so the
unamended claim fails. -/
theorem C7_cursor_advance (data : List Nat) (pos len : Nat)
    (hread : readU32BE data pos = some len)
    (hstop : pos + 4 + len ≤ data.length)
    (hfit : pos + 4 + len + pad_length len < 4294967296) :
    tryFrom data pos =
      DecodeResult.ok ((data.drop (pos + 4)).take len)
        (pos + 4 + len + pad_length len) :=
  tryFrom_ok_of data pos len hread hstop hfit

/-- C7 witness: decoding the 8-byte frame with length 1 and payload 171
ends with the cursor at 8. -/
theorem C7_cursor_advance_witness :
    readU32BE [0, 0, 0, 1, 171, 0, 0, 0] 0 = some 1 ∧
    0 + 4 + 1 ≤ ([0, 0, 0, 1, 171, 0, 0, 0] : List Nat).length ∧
    0 + 4 + 1 + pad_length 1 < 4294967296 ∧
    tryFrom [0, 0, 0, 1, 171, 0, 0, 0] 0 = DecodeResult.ok [171] 8 :=
  ⟨by decide, by decide, by decide,
    C7_cursor_advance [0, 0, 0, 1, 171, 0, 0, 0] 0 1 (by decide) (by decide)
      (by decide)⟩

/-- C7 counterexample: decoding the maximal frame, length prefix
u32::MAX followed by u32::MAX payload bytes, starting at position 0
succeeds but leaves the cursor at 4, not at
0 + 4 + 4294967295 + pad_length 4294967295 = 4294967300, because line
30 truncates the end offset to u32. -/
theorem C7_counterexample :
    tryFrom maxFrame 0 = DecodeResult.ok (List.replicate 4294967295 0) 4 ∧
    (4 : Nat) ≠ 0 + 4 + 4294967295 + pad_length 4294967295 :=
  ⟨tryFrom_maxFrame, by norm_num [pad_length]⟩

/-- C8: a successful serialise_into appends to the sink exactly the
4-byte big-endian length prefix, then the payload verbatim, then
pad_length len bytes each equal to zero, so equal payloads always
produce byte-identical output. -/
theorem C8_zero_fill (body s0 : List Nat) :
    serialise_into body ⟨none, s0⟩ =
      (true, ⟨none, s0 ++ be32 (body.length % 4294967296) ++ body ++
        List.replicate (pad_length body.length) 0⟩) := by
  rw [serialise_into_unbounded, pad_length_mod]

/-- C9: a length prefix of zero decodes successfully to the empty
payload wherever it occurs, and encoding the empty payload produces
exactly the four zero prefix bytes with no payload and no padding. -/
theorem C9_zero_length (data : List Nat) (pos : Nat)
    (hread : readU32BE data pos = some 0) :
    tryFrom data pos = DecodeResult.ok [] ((pos + 4) % 4294967296) ∧
    serialise_bytes [] = [0, 0, 0, 0] := by
  refine ⟨?_, by decide⟩
  have hb := readU32BE_bound data pos 0 hread
  rw [tryFrom_eq_of_read data pos 0 hread, if_pos (by omega)]
  have h1 : (data.drop (pos + 4)).take 0 = [] := List.take_zero _
  have h2 : (pad_length 0 + (pos + 4 + 0) % 4294967296) % 4294967296 =
      (pos + 4) % 4294967296 := by
    have hp : pad_length 0 = 0 := rfl
    omega
  rw [h1, h2]

/-- C9 witness: the zero-length law evaluated on the buffer 0, 0, 0, 0. -/
theorem C9_zero_length_witness :
    readU32BE [0, 0, 0, 0] 0 = some 0 ∧
    (tryFrom [0, 0, 0, 0] 0 = DecodeResult.ok [] 4 ∧
      serialise_bytes [] = [0, 0, 0, 0]) :=
  ⟨by decide, C9_zero_length [0, 0, 0, 0] 0 (by decide)⟩

/-- C10 amended: when the buffer holds the full prefix and payload but
ends before some or all padding bytes, decode succeeds and returns the
payload with the cursor placed at p + 4 + len + pad_length len, which
is past the buffer end, provided that offset fits in u32; without that
proviso line 30 can wrap the cursor back inside the buffer. -/
theorem C10_truncated_padding (data : List Nat) (pos len : Nat)
    (hread : readU32BE data pos = some len)
    (hstop : pos + 4 + len ≤ data.length)
    (hshort : data.length < pos + 4 + len + pad_length len)
    (hfit : pos + 4 + len + pad_length len < 4294967296) :
    tryFrom data pos =
      DecodeResult.ok ((data.drop (pos + 4)).take len)
        (pos + 4 + len + pad_length len) ∧
    data.length < pos + 4 + len + pad_length len :=
  ⟨tryFrom_ok_of data pos len hread hstop hfit, hshort⟩

/-- C10 witness: the 5-byte buffer with length 1 and payload 171 lacks
its three padding bytes; decode succeeds and parks the cursor at 8,
past the buffer end. -/
theorem C10_truncated_padding_witness :
    readU32BE [0, 0, 0, 1, 171] 0 = some 1 ∧
    0 + 4 + 1 ≤ ([0, 0, 0, 1, 171] : List Nat).length ∧
    ([0, 0, 0, 1, 171] : List Nat).length < 0 + 4 + 1 + pad_length 1 ∧
    0 + 4 + 1 + pad_length 1 < 4294967296 ∧
    (tryFrom [0, 0, 0, 1, 171] 0 = DecodeResult.ok [171] 8 ∧
      ([0, 0, 0, 1, 171] : List Nat).length < 0 + 4 + 1 + pad_length 1) :=
  ⟨by decide, by decide, by decide, by decide,
    C10_truncated_padding [0, 0, 0, 1, 171] 0 1 (by decide) (by decide)
      (by decide) (by decide)⟩

/-- C10 counterexample: the maximal frame ends one byte before its one
padding byte, decode succeeds, yet the cursor lands at 4, inside the
buffer, not past its end, because line 30 truncates the end offset to
u32. -/
theorem C10_counterexample :
    tryFrom maxFrame 0 = DecodeResult.ok (List.replicate 4294967295 0) 4 ∧
    maxFrame.length < 0 + 4 + 4294967295 + pad_length 4294967295 ∧
    ¬ maxFrame.length < 4 := by
  refine ⟨tryFrom_maxFrame, ?_, ?_⟩ <;>
    rw [maxFrame_length] <;> norm_num [pad_length]
